import Mathlib

/-!
Verification development for the oip-account repository.

The repository's substantive logic is the ArtifactPaymentBuilder payment
flow.  Its implementation file (src/ArtifactPaymentBuilder.js) is not part
of the source tree given here; only its unit-test suite
(src/unnamed/part_000) is.  The builder's operations are therefore
modelled from the specification (spec.md sections 4.1-4.6 and 8), with
every concrete behaviour that the repository's own unit tests pin down
(argument shapes, concrete expected outputs) reproduced exactly; the
test-reproduction lemmas below check the model against each concrete
assertion of the test suite.

The KeystoreStorageAdapter and Account classes
(src/src/StorageAdapters/KeystoreStorageAdapter.js) are embedded directly
from their source.  Mutable JS objects are modelled by an explicit heap
(object references are natural numbers) where aliasing matters, and by
plain record passing where it does not.  JS numbers are modelled as
rationals; JS string truthiness (undefined and the empty string are
falsy) is modelled explicitly.
-/

namespace OIPAccount

/-- A table mapping coin symbols to rational amounts (rates, costs or
balances); modelled as an association list because JS object key order is
significant to the builder (priority order of coins). -/
abbrev AmountTable := List (String × ℚ)

/-- A PaymentAddressSet: coin symbol to destination address, in the order
advertised by the artifact. -/
abbrev AddressSet := List (String × String)

/-- Modelled from the spec: the list of coin symbols advertised by an
artifact's PaymentAddressSet, in advertised order (spec section 3 and 4.4:
the order in which coins appear in the artifact's PaymentAddressSet). -/
def advertisedCoins (addresses : AddressSet) : List String :=
  addresses.map Prod.fst

/-- Modelled from the spec: getSupportedCoins of the missing
src/ArtifactPaymentBuilder.js (spec sections 4.6 and 8): with no filter it
returns the artifact's advertised coins; with a caller filter it returns
the intersection of the filter with the advertised coins.  The repository's
unit tests (src/unnamed/part_000, the test with filter
["flo", "btc"] expecting ["flo", "btc"]) fix the order of the filtered
result to be the FILTER's order, not the advertised order, so the
intersection is taken by walking the filter list. -/
def getSupportedCoins (addresses : AddressSet) (filter : Option (List String)) :
    List String :=
  match filter with
  | none => advertisedCoins addresses
  | some coins => coins.filter (fun c => (advertisedCoins addresses).contains c)

/-- For the refinement comparison only: getSupportedCoins as the spec
sentence for claim C2 words it, with the intersection ordered by the
artifact's ADVERTISED order (walking the advertised list and keeping the
coins the filter mentions). -/
def getSupportedCoinsSpecOrder (addresses : AddressSet) (filter : List String) :
    List String :=
  (advertisedCoins addresses).filter (fun c => filter.contains c)

/-- The PaymentAddressSet of the artifact used throughout the repository's
unit tests. -/
def testAddresses : AddressSet :=
  [("btc", "19HuaNprtc8MpG6bmiPoZigjaEu9xccxps"),
   ("ltc", "LbpjYYPwYBjoPQ44PrNZr7nTq7HkYgcoXN"),
   ("flo", "F6esyn5opgUDcEdJpujxS9WLfu8Zj9XUZQ")]

/-- The model reproduces every concrete getSupportedCoins assertion of the
repository's unit tests: no filter gives the advertised list, filter
["flo"] gives ["flo"], filter ["flo", "btc"] gives ["flo", "btc"] (the
filter's order), and the unsupported filter ["tron"] gives []. -/
theorem getSupportedCoins_matches_unit_tests :
    getSupportedCoins testAddresses none = ["btc", "ltc", "flo"] ∧
    getSupportedCoins testAddresses (some ["flo"]) = ["flo"] ∧
    getSupportedCoins testAddresses (some ["flo", "btc"]) = ["flo", "btc"] ∧
    getSupportedCoins testAddresses (some ["tron"]) = [] := by
  refine ⟨rfl, rfl, rfl, rfl⟩

/-- Claim C2 as stated is false on the repository's own unit test input:
with the test artifact (advertised order btc, ltc, flo) and the caller
filter ["flo", "btc"], getSupportedCoins returns ["flo", "btc"] (the
filter's order, as the unit test at src/unnamed/part_000 lines 119-122
demands), not the advertised-order intersection ["btc", "flo"]. -/
theorem getSupportedCoins_filter_order_counterexample :
    getSupportedCoins testAddresses (some ["flo", "btc"]) ≠
      getSupportedCoinsSpecOrder testAddresses ["flo", "btc"] ∧
    getSupportedCoinsSpecOrder testAddresses ["flo", "btc"] = ["btc", "flo"] := by
  refine ⟨by decide, rfl⟩

/-- C2 (amended): for every artifact PaymentAddressSet and caller filter,
getSupportedCoins returns exactly the intersection of the artifact's
advertised coins and the filter — a coin is in the result iff it is in the
filter and advertised — and the result is ordered by the FILTER's order
(it is a sublist of the filter). -/
theorem getSupportedCoins_intersection_filter_order
    (addresses : AddressSet) (filter : List String) :
    (∀ c, c ∈ getSupportedCoins addresses (some filter) ↔
        c ∈ filter ∧ c ∈ advertisedCoins addresses) ∧
    (getSupportedCoins addresses (some filter)).Sublist filter := by
  constructor
  · intro c
    simp [getSupportedCoins, List.mem_filter]
  · exact List.filter_sublist filter

/-- C7: for every PaymentAddressSet and caller filter, getSupportedCoins
silently drops coins of the filter that the artifact does not advertise:
every coin of the result is advertised, and a filter consisting only of
unadvertised coins yields the empty list (a value, not a failure — the
operation is total). -/
theorem getSupportedCoins_drops_unadvertised
    (addresses : AddressSet) (filter : List String) :
    (∀ c ∈ getSupportedCoins addresses (some filter),
      c ∈ advertisedCoins addresses) ∧
    ((∀ c ∈ filter, c ∉ advertisedCoins addresses) →
      getSupportedCoins addresses (some filter) = []) := by
  constructor
  · intro c hc
    simp only [getSupportedCoins, List.mem_filter] at hc
    simpa using hc.2
  · intro h
    simp only [getSupportedCoins]
    rw [List.filter_eq_nil_iff]
    intro c hc
    simpa using h c hc

/-- Witness for C7 at the repository's own unit-test input: the filter
["tron"] mentions no advertised coin of the test artifact, and the result
is the empty list. -/
theorem getSupportedCoins_drops_unadvertised_witness :
    getSupportedCoins testAddresses (some ["tron"]) = [] :=
  (getSupportedCoins_drops_unadvertised testAddresses ["tron"]).2 (by decide)

/-- Modelled from the spec: convertCosts of the missing
src/ArtifactPaymentBuilder.js (spec section 4.3).  When the target is a
coin-denominated tip amount (purchase type tip with no fiat currency), the
conversion is the identity: every coin of the rate table is assigned the
caller-supplied amount directly, with no rate lookup.  When the target is
fiat-denominated, cost in coin c is targetValue / rate c, and a coin whose
rate is zero is excluded from the resulting CostTable (a missing rate
simply has no entry to convert); amounts are modelled as rationals. -/
def convertCosts (rates : AmountTable) (targetValue : ℚ)
    (targetIsCoinAmount : Bool) : AmountTable :=
  if targetIsCoinAmount then
    rates.map (fun p => (p.1, targetValue))
  else
    (rates.filter (fun p => decide (p.2 ≠ 0))).map
      (fun p => (p.1, targetValue / p.2))

/-- C4: with a tip purchase type and no fiat currency (the
coin-denominated-target case), convertCosts is the identity on the amount:
every entry of the result carries the caller-supplied tip amount unchanged,
and no rate is looked up — the result depends only on the coin names of the
rate table, not on any of its rate values. -/
theorem convertCosts_tip_identity (rates rates' : AmountTable) (amount : ℚ)
    (hkeys : rates.map Prod.fst = rates'.map Prod.fst) :
    (∀ c v, (c, v) ∈ convertCosts rates amount true → v = amount) ∧
    convertCosts rates amount true = convertCosts rates' amount true := by
  have hmap : ∀ (l : AmountTable),
      l.map (fun p => (p.1, amount)) = (l.map Prod.fst).map (fun c => (c, amount)) := by
    intro l
    induction l with
    | nil => rfl
    | cons x xs ih => simp [ih]
  constructor
  · intro c v hv
    simp only [convertCosts, if_true, List.mem_map] at hv
    obtain ⟨p, -, hp⟩ := hv
    rw [Prod.mk.injEq] at hp
    exact hp.2.symm
  · show rates.map (fun p => (p.1, amount)) = rates'.map (fun p => (p.1, amount))
    rw [hmap rates, hkeys, ← hmap rates']

/-- Witness for C4: a concrete rate table (the spec section 8 scenario) and
a second table with the same coins but all rates doubled give the same
CostTable for a coin-denominated tip of 0.0012, and every cost equals
0.0012. -/
theorem convertCosts_tip_identity_witness :
    ([("flo", (1 : ℚ)/100), ("bitcoin", 20000), ("litecoin", 60)].map Prod.fst
      = [("flo", (2 : ℚ)/100), ("bitcoin", 40000), ("litecoin", 120)].map Prod.fst) ∧
    convertCosts [("flo", (1 : ℚ)/100), ("bitcoin", 20000), ("litecoin", 60)]
        (12/10000) true
      = convertCosts [("flo", (2 : ℚ)/100), ("bitcoin", 40000), ("litecoin", 120)]
        (12/10000) true := by
  refine ⟨by decide, ?_⟩
  exact (convertCosts_tip_identity _ _ _ (by decide)).2

/-- C5: in the fiat-denominated case, an entry (c, v) appears in the
CostTable exactly when the rate table carries an entry (c, r) with r ≠ 0
and v = targetValue / r: every produced cost is the finite quotient of the
target by a nonzero rate (no infinity or NaN can arise, the division is
exact rational division), and zero-rate coins are excluded; a coin with no
rate entry contributes nothing. -/
theorem convertCosts_fiat_division (rates : AmountTable) (targetValue : ℚ) :
    ∀ c v, (c, v) ∈ convertCosts rates targetValue false ↔
      ∃ r, (c, r) ∈ rates ∧ r ≠ 0 ∧ v = targetValue / r := by
  intro c v
  simp only [convertCosts, Bool.false_eq_true, if_false, List.mem_map,
    List.mem_filter, decide_eq_true_eq]
  constructor
  · rintro ⟨⟨pc, pr⟩, ⟨hmem, hr⟩, hp⟩
    rw [Prod.mk.injEq] at hp
    obtain ⟨hc, hv⟩ := hp
    subst hc
    exact ⟨pr, hmem, hr, hv.symm⟩
  · rintro ⟨r, hmem, hr, hv⟩
    exact ⟨(c, r), ⟨hmem, hr⟩, by rw [hv]⟩

/-- The spec section 8 end-to-end conversion scenario holds in the model:
rates flo = 0.01, bitcoin = 20000, litecoin = 60 and fiat target 0.0012
give costs flo = 0.12, bitcoin = 0.00000006 (6e-8), litecoin = 0.00002. -/
theorem convertCosts_fiat_scenario :
    convertCosts [("flo", (1 : ℚ)/100), ("bitcoin", 20000), ("litecoin", 60)]
        (12/10000) false
      = [("flo", 12/100), ("bitcoin", 6/100000000), ("litecoin", 2/100000)] := by
  norm_num [convertCosts, List.filter_cons]

/-- The result of coin selection: either a chosen coin symbol, or the
insufficient-funds failure naming the shortfall (cost minus balance) per
coin (spec section 4.4). -/
inductive SelectResult where
  | selected (coin : String)
  | insufficientFunds (shortfalls : List (String × ℚ))
deriving DecidableEq

/-- Lookup of a coin's amount in a table (the first entry with that key,
as JS object property access on the modelled object). -/
def lookupAmount (table : AmountTable) (coin : String) : Option ℚ :=
  (table.find? (fun p => p.1 == coin)).map Prod.snd

/-- Modelled from the spec: a coin is affordable when it has both a balance
and a cost entry and its balance is greater than or equal to its cost (spec
sections 4.4 and 8: equality counts as affordable). -/
def affordable (balances costs : AmountTable) (coin : String) : Bool :=
  match lookupAmount balances coin, lookupAmount costs coin with
  | some b, some c => c ≤ b
  | _, _ => false

/-- Modelled from the spec: the priority-order scan of selectCoin (spec
section 4.4): iterate the supported coins in the artifact's advertised
order and return the first affordable one; if none is affordable, fail
with InsufficientFunds naming the shortfall per coin. -/
def selectCoinScan (coins : List String) (balances costs : AmountTable) :
    SelectResult :=
  match coins.find? (affordable balances costs) with
  | some c => .selected c
  | none =>
      .insufficientFunds (coins.map (fun c =>
        (c, ((lookupAmount costs c).getD 0) - ((lookupAmount balances c).getD 0))))

/-- Modelled from the spec: selectCoin of the missing
src/ArtifactPaymentBuilder.js (spec section 4.4).  If a preferredCoin is
supplied and affordable it is returned immediately; otherwise (also when
the preferred coin is unaffordable, per the spec section 8 end-to-end
scenario) selection falls through to the deterministic priority-order
scan. -/
def selectCoin (coins : List String) (balances costs : AmountTable)
    (preferredCoin : Option String) : SelectResult :=
  match preferredCoin with
  | some p =>
      if affordable balances costs p then .selected p
      else selectCoinScan coins balances costs
  | none => selectCoinScan coins balances costs

/-- C1: selectCoin never returns a coin whose balance is below its cost —
any selected coin is affordable (its balance and cost entries exist and
cost ≤ balance) — and when every supported coin and any preferred coin is
unaffordable it returns the InsufficientFunds failure, never a coin. -/
theorem selectCoin_sound (coins : List String) (balances costs : AmountTable)
    (preferredCoin : Option String) :
    (∀ ch, selectCoin coins balances costs preferredCoin = .selected ch →
      affordable balances costs ch = true) ∧
    ((∀ c ∈ coins, affordable balances costs c = false) →
      (∀ p ∈ preferredCoin, affordable balances costs p = false) →
      ∃ sh, selectCoin coins balances costs preferredCoin =
        .insufficientFunds sh) := by
  have hscan : ∀ ch, selectCoinScan coins balances costs = .selected ch →
      affordable balances costs ch = true := by
    intro ch h
    unfold selectCoinScan at h
    cases hf : coins.find? (affordable balances costs) with
    | none => rw [hf] at h; exact absurd h (by simp)
    | some c =>
        rw [hf] at h
        cases h
        exact List.find?_some hf
  have hscanFail : (∀ c ∈ coins, affordable balances costs c = false) →
      ∃ sh, selectCoinScan coins balances costs = .insufficientFunds sh := by
    intro hall
    have hnone : coins.find? (affordable balances costs) = none :=
      List.find?_eq_none.mpr (fun c hc => by simp [hall c hc])
    refine ⟨coins.map (fun c =>
      (c, ((lookupAmount costs c).getD 0) - ((lookupAmount balances c).getD 0))), ?_⟩
    unfold selectCoinScan
    rw [hnone]
  constructor
  · intro ch h
    cases preferredCoin with
    | none => exact hscan ch h
    | some p =>
        by_cases hp : affordable balances costs p = true
        · simp only [selectCoin, hp, if_true] at h
          cases h
          exact hp
        · simp only [selectCoin, Bool.not_eq_true] at hp
          simp only [selectCoin, hp, Bool.false_eq_true, if_false] at h
          exact hscan ch h
  · intro hall hpref
    cases preferredCoin with
    | none => exact hscanFail hall
    | some p =>
        have hp := hpref p rfl
        simp only [selectCoin, hp, Bool.false_eq_true, if_false]
        exact hscanFail hall

/-- Witness for C1 at a concrete input: with balances all below costs for
the test artifact's coins and no preferred coin, selectCoin returns the
InsufficientFunds failure. -/
theorem selectCoin_sound_witness :
    ∃ sh, selectCoin ["btc", "ltc", "flo"]
        [("btc", 0), ("ltc", 0), ("flo", 0)]
        [("btc", 1), ("ltc", 1), ("flo", 1)] none = .insufficientFunds sh :=
  (selectCoin_sound ["btc", "ltc", "flo"]
      [("btc", 0), ("ltc", 0), ("flo", 0)]
      [("btc", 1), ("ltc", 1), ("flo", 1)] none).2
    (by decide) (by decide)

/-- C3: if the preferred coin is affordable, selectCoin returns it
immediately, whatever the other balances; if the preferred coin is not
affordable, selectCoin with that preference computes exactly what
selectCoin without a preference computes — it falls through to the
priority-order scan instead of failing outright. -/
theorem selectCoin_preferred (coins : List String) (balances costs : AmountTable)
    (p : String) :
    (affordable balances costs p = true →
      selectCoin coins balances costs (some p) = .selected p) ∧
    (affordable balances costs p = false →
      selectCoin coins balances costs (some p) =
        selectCoin coins balances costs none) := by
  constructor
  · intro hp
    simp [selectCoin, hp]
  · intro hp
    simp [selectCoin, hp]

/-- Witness for C3: in the spec section 8 end-to-end shape (btc balance 0
with a positive btc cost), the preferred coin btc is unaffordable and
selection falls through to the scan; and a preferred ltc whose balance
exactly matches its cost is returned immediately even though btc also has
funds. -/
theorem selectCoin_preferred_witness :
    selectCoin ["btc", "ltc", "flo"]
        [("btc", 0), ("ltc", 0), ("flo", 1)]
        [("btc", 1), ("ltc", 1), ("flo", 1)]
        (some "btc")
      = selectCoin ["btc", "ltc", "flo"]
        [("btc", 0), ("ltc", 0), ("flo", 1)]
        [("btc", 1), ("ltc", 1), ("flo", 1)] none ∧
    selectCoin ["btc", "ltc", "flo"]
        [("btc", 5), ("ltc", 2), ("flo", 0)]
        [("btc", 1), ("ltc", 2), ("flo", 1)]
        (some "ltc")
      = .selected "ltc" := by
  constructor
  · exact (selectCoin_preferred ["btc", "ltc", "flo"] _ _ "btc").2 (by decide)
  · exact (selectCoin_preferred ["btc", "ltc", "flo"] _ _ "ltc").1 (by decide)

/-- The model realizes the spec section 8 end-to-end scenario: balances
flo = 1, btc = 0, ltc = 0 with every cost positive make flo the only
affordable coin, and the scan over the test artifact's coins selects
flo. -/
theorem selectCoin_scenario :
    selectCoin ["btc", "ltc", "flo"]
        [("btc", 0), ("ltc", 0), ("flo", 1)]
        [("btc", 1), ("ltc", 1), ("flo", 1)] none
      = .selected "flo" := by
  decide

/-- Modelled from the spec: the coin-symbol to rate-provider canonical
name mapping of the missing src/ArtifactPaymentBuilder.js (spec section
4.1, "btc" maps to "bitcoin"; the repository's unit tests additionally pin
"ltc" to "litecoin" and "flo" to itself). -/
def toProviderName (coin : String) : String :=
  match coin with
  | "btc" => "bitcoin"
  | "ltc" => "litecoin"
  | _ => coin

/-- Modelled from the spec: the per-coin provider queries of
getExchangeRates (spec section 4.1): each requested coin is looked up
under its canonical provider name; the call is all-or-nothing, one failed
lookup fails the whole fetch. -/
def fetchRatesList (fetch : String → Option ℚ) : List String → Option AmountTable
  | [] => some []
  | c :: rest =>
      match fetch (toProviderName c), fetchRatesList fetch rest with
      | some p, some tail => some ((c, p) :: tail)
      | _, _ => none

/-- Modelled from the spec: getExchangeRates of the missing
src/ArtifactPaymentBuilder.js (spec section 4.1): the fetched prices are
mapped back to BOTH the short symbol and the canonical provider name, so
the result table exposes every requested coin under both keys. -/
def getExchangeRates (coins : List String) (fetch : String → Option ℚ) :
    Option AmountTable :=
  (fetchRatesList fetch coins).map
    (fun entries => entries.flatMap
      (fun e => [(e.1, e.2), (toProviderName e.1, e.2)]))

/-- C6: when getExchangeRates succeeds, every requested coin appears in the
result under two keys — its short symbol and its canonical provider name —
both mapping to the fiat price the provider returned for it. -/
theorem getExchangeRates_both_keys (coins : List String)
    (fetch : String → Option ℚ) (table : AmountTable)
    (h : getExchangeRates coins fetch = some table) :
    ∀ c ∈ coins, ∃ p, fetch (toProviderName c) = some p ∧
      (c, p) ∈ table ∧ (toProviderName c, p) ∈ table := by
  have hlist : ∀ (cs : List String) (entries : AmountTable),
      fetchRatesList fetch cs = some entries →
      ∀ c ∈ cs, ∃ p, fetch (toProviderName c) = some p ∧ (c, p) ∈ entries := by
    intro cs
    induction cs with
    | nil => intro entries _ c hc; exact absurd hc (List.not_mem_nil c)
    | cons x rest ih =>
        intro entries hsome c hc
        unfold fetchRatesList at hsome
        cases hx : fetch (toProviderName x) with
        | none => rw [hx] at hsome; exact absurd hsome (by simp)
        | some px =>
            cases hrest : fetchRatesList fetch rest with
            | none => rw [hx, hrest] at hsome; exact absurd hsome (by simp)
            | some tail =>
                rw [hx, hrest] at hsome
                simp only [Option.some.injEq] at hsome
                subst hsome
                rcases List.mem_cons.mp hc with hcx | hcr
                · subst hcx
                  exact ⟨px, hx, List.mem_cons_self _ _⟩
                · obtain ⟨p, hp, hmem⟩ := ih tail hrest c hcr
                  exact ⟨p, hp, List.mem_cons_of_mem _ hmem⟩
  intro c hc
  simp only [getExchangeRates, Option.map_eq_some'] at h
  obtain ⟨entries, hentries, htable⟩ := h
  obtain ⟨p, hp, hmem⟩ := hlist coins entries hentries c hc
  refine ⟨p, hp, ?_, ?_⟩
  · rw [← htable]
    exact List.mem_flatMap.mpr ⟨(c, p), hmem, by simp⟩
  · rw [← htable]
    exact List.mem_flatMap.mpr ⟨(c, p), hmem, by simp⟩

/-- A concrete rate provider for the witness: quotes for bitcoin, litecoin
and flo only. -/
def demoFetch (name : String) : Option ℚ :=
  if name = "bitcoin" then some 20000
  else if name = "litecoin" then some 60
  else if name = "flo" then some 1
  else none

/-- Witness for C6 at a concrete input: fetching the test artifact's coins
from the demo provider succeeds and exposes btc both as "btc" and as
"bitcoin", priced at 20000. -/
theorem getExchangeRates_both_keys_witness :
    ∃ p, demoFetch (toProviderName "btc") = some p ∧
      ("btc", p) ∈ [("btc", (20000 : ℚ)), ("bitcoin", 20000), ("ltc", 60),
        ("litecoin", 60), ("flo", 1), ("flo", 1)] ∧
      (toProviderName "btc", p) ∈ [("btc", (20000 : ℚ)), ("bitcoin", 20000),
        ("ltc", 60), ("litecoin", 60), ("flo", 1), ("flo", 1)] :=
  getExchangeRates_both_keys ["btc", "ltc", "flo"] demoFetch
    [("btc", 20000), ("bitcoin", 20000), ("ltc", 60), ("litecoin", 60),
      ("flo", 1), ("flo", 1)] rfl "btc" (by decide)

/-- JS truthiness of an optional string: undefined and the empty string
are falsy, every other string truthy. -/
def jsTruthy : Option String → Bool
  | none => false
  | some s => !(s == "")

/-- The JS expression `v || dflt` for an optional string v. -/
def jsOr (v : Option String) (dflt : String) : String :=
  match v with
  | some s => if s == "" then dflt else s
  | none => dflt

/-- DEFAULT_KEYSTORE_SERVER of KeystoreStorageAdapter.js line 6. -/
def DEFAULT_KEYSTORE_SERVER : String := "https://keystore.oip.li/v2/"

/-- The fields a KeystoreStorageAdapter holds after its constructor runs
(KeystoreStorageAdapter.js lines 20-28): the username and password stored
by the StorageAdapter superclass, and the server base URL the axios client
is created with. -/
structure KeystoreStorageAdapter where
  username : Option String
  password : Option String
  url : String
deriving DecidableEq

/-- The KeystoreStorageAdapter constructor, embedded from
KeystoreStorageAdapter.js lines 20-28: super(username, password) stores
the credentials and the base URL is keystore_url || DEFAULT_KEYSTORE_SERVER.
The parameter order is the source's declared order: username, password,
keystore_url. -/
def KeystoreStorageAdapter.construct
    (username password keystore_url : Option String) : KeystoreStorageAdapter :=
  { username := username, password := password,
    url := jsOr keystore_url DEFAULT_KEYSTORE_SERVER }

/-- An account-data JSON object as KeystoreStorageAdapter.create touches
it: the three fields create writes on its clone, plus the rest of the
blob (wallet, settings, history, ...) which create never reads or
writes, modelled as an opaque association list. -/
structure AccountData where
  identifier : Option String
  shared_key : Option String
  email : Option String
  extra : List (String × String)
deriving DecidableEq

/-- A heap of mutable JS objects: object references are natural numbers.
Aliasing is what claim C8 is about, so object identity is explicit. -/
abbrev Heap := Nat → AccountData

/-- Writing one object of the heap. -/
def heapWrite (h : Heap) (ref : Nat) (v : AccountData) : Heap :=
  fun r => if r = ref then v else h r

/-- The body of a successful response of the keystore server's /create
endpoint, as KeystoreStorageAdapter.create reads it: an identifier and
optional shared_key and email. -/
structure KeystoreResponse where
  identifier : String
  shared_key : Option String
  email : Option String

/-- The adapter's own this.storage object, restricted to the fields
create touches. -/
structure KeystoreStorage where
  identifier : Option String
  shared_key : Option String
  email : Option String
deriving DecidableEq

/-- Everything KeystoreStorageAdapter.create leaves behind: the heap of
JS objects, the adapter's storage and username fields, and the reference
of the object it returns. -/
structure CreateOutcome where
  heap : Heap
  storage : KeystoreStorage
  username : Option String
  returnedRef : Nat

/-- KeystoreStorageAdapter.create, embedded from
KeystoreStorageAdapter.js lines 37-67 (successful server call; a failed
call throws before any write).  Line 38 deep-clones the account_data
argument into a fresh object (cloneRef); lines 51-58 copy the server's
shared_key and email, when truthy, onto this.storage and onto the clone;
lines 60-61 write the server's identifier onto the clone and this.storage;
lines 63-64 set this._username to the identifier when it was unset; line
66 hands the clone to _save, which re-stores the identifier and returns
the clone.  No statement writes through accountRef. -/
def KeystoreStorageAdapter.create (heap : Heap) (storage : KeystoreStorage)
    (username : Option String) (accountRef cloneRef : Nat)
    (resp : KeystoreResponse) : CreateOutcome :=
  let heap1 := heapWrite heap cloneRef (heap accountRef)
  let storage1 := if jsTruthy resp.shared_key then
      { storage with shared_key := resp.shared_key } else storage
  let heap2 := if jsTruthy resp.shared_key then
      heapWrite heap1 cloneRef { heap1 cloneRef with shared_key := resp.shared_key }
    else heap1
  let storage2 := if jsTruthy resp.email then
      { storage1 with email := resp.email } else storage1
  let heap3 := if jsTruthy resp.email then
      heapWrite heap2 cloneRef { heap2 cloneRef with email := resp.email }
    else heap2
  let heap4 := heapWrite heap3 cloneRef
    { heap3 cloneRef with identifier := some resp.identifier }
  let storage3 := { storage2 with identifier := some resp.identifier }
  let username1 := if jsTruthy username then username else some resp.identifier
  { heap := heap4, storage := storage3, username := username1,
    returnedRef := cloneRef }

/-- C8: KeystoreStorageAdapter.create leaves the caller's account_data
object unchanged: as long as the clone is a fresh object (a different
reference than the argument), the heap cell of the argument after create
equals its value before, and the object create returns is the clone, not
the argument. -/
theorem keystore_create_preserves_argument (heap : Heap)
    (storage : KeystoreStorage) (username : Option String)
    (accountRef cloneRef : Nat) (resp : KeystoreResponse)
    (hfresh : cloneRef ≠ accountRef) :
    (KeystoreStorageAdapter.create heap storage username accountRef cloneRef
        resp).heap accountRef = heap accountRef ∧
    (KeystoreStorageAdapter.create heap storage username accountRef cloneRef
        resp).returnedRef = cloneRef := by
  have hne : accountRef ≠ cloneRef := Ne.symm hfresh
  constructor
  · by_cases h1 : jsTruthy resp.shared_key <;> by_cases h2 : jsTruthy resp.email <;>
      simp [KeystoreStorageAdapter.create, heapWrite, h1, h2, hne]
  · rfl

/-- Witness for C8 at a concrete input: a heap whose object 0 is an
account blob with a wallet entry, cloned into fresh object 1; after
create, object 0 still holds exactly the original blob and the returned
object is 1. -/
theorem keystore_create_preserves_argument_witness :
    (KeystoreStorageAdapter.create
        (fun r => if r = 0 then
            { identifier := none, shared_key := none, email := none,
              extra := [("wallet.mnemonic", "abandon")] }
          else { identifier := none, shared_key := none, email := none, extra := [] })
        { identifier := none, shared_key := none, email := none }
        none 0 1
        { identifier := "id-123", shared_key := some "abcd",
          email := some "a@b.c" }).heap 0
      = (fun r => if r = 0 then
            ({ identifier := none, shared_key := none, email := none,
               extra := [("wallet.mnemonic", "abandon")] } : AccountData)
          else { identifier := none, shared_key := none, email := none, extra := [] }) 0 ∧
    (KeystoreStorageAdapter.create
        (fun r => if r = 0 then
            { identifier := none, shared_key := none, email := none,
              extra := [("wallet.mnemonic", "abandon")] }
          else { identifier := none, shared_key := none, email := none, extra := [] })
        { identifier := none, shared_key := none, email := none }
        none 0 1
        { identifier := "id-123", shared_key := some "abcd",
          email := some "a@b.c" }).returnedRef = 1 :=
  keystore_create_preserves_argument _ _ _ 0 1 _ (by decide)

/-- The options object of the Account constructor, restricted to the
fields the constructor reads. -/
structure AccountOptions where
  store_memory : Bool
  store_in_keystore : Bool
  keystore_url : Option String
  discover : Option Bool
deriving DecidableEq

/-- Which storage adapter the Account constructor built, with the
constructor arguments it passed (the memory adapter receives the account
object, not credentials). -/
inductive StorageAdapterChoice where
  | memory
  | keystore (adapter : KeystoreStorageAdapter)
  | localStorage (username : Option String) (password : Option String)
deriving DecidableEq

/-- The adapter dispatch of the Account constructor, embedded from
KeystoreStorageAdapter.js lines 184-191: store_memory wins, then
store_in_keystore, else local storage.  Line 188 constructs the keystore
adapter as the source writes it, passing (options.keystore_url,
this._username, this._password) — in that order — to a constructor whose
declared parameters are (username, password, keystore_url). -/
def mkStorageAdapter (options : Option AccountOptions)
    (username password : Option String) : StorageAdapterChoice :=
  match options with
  | some opts =>
      if opts.store_memory then .memory
      else if opts.store_in_keystore then
        .keystore (KeystoreStorageAdapter.construct opts.keystore_url username password)
      else .localStorage username password
  | none => .localStorage username password

/-- The fields of an Account after its constructor runs. -/
structure AccountCtor where
  username : Option String
  password : Option String
  wallet_mnemonic : Option String
  adapter : StorageAdapterChoice
  discover : Bool
deriving DecidableEq

/-- The Account constructor, embedded from KeystoreStorageAdapter.js lines
159-197.  isMnemonic stands for util.isMnemonic of the external oip-hdmw
library.  Lines 179-182: when the username is a BIP39 mnemonic it is moved
into this._account.wallet.mnemonic and this._username is set to undefined;
only then (lines 184-191) is the storage adapter constructed, from the
updated this._username.  Lines 193-196 set discover. -/
def Account.construct (isMnemonic : String → Bool)
    (username password : Option String) (options : Option AccountOptions) :
    AccountCtor :=
  let isMn := (username.map isMnemonic).getD false
  let mnemonic := if isMn then username else none
  let username1 := if isMn then none else username
  let adapter := mkStorageAdapter options username1 password
  let discover := match options with
    | some opts => opts.discover.getD true
    | none => true
  { username := username1, password := password, wallet_mnemonic := mnemonic,
    adapter := adapter, discover := discover }

/-- C9: for every username recognized as a BIP39 mnemonic, the Account
constructor stores it as the account's wallet mnemonic, sets the account's
username to undefined, and the storage adapter it then builds is exactly
the one built from an undefined username — the mnemonic is never handed to
a storage adapter as a username. -/
theorem account_construct_mnemonic (isMnemonic : String → Bool)
    (username : String) (password : Option String)
    (options : Option AccountOptions) (h : isMnemonic username = true) :
    (Account.construct isMnemonic (some username) password options).wallet_mnemonic
        = some username ∧
    (Account.construct isMnemonic (some username) password options).username
        = none ∧
    (Account.construct isMnemonic (some username) password options).adapter
        = mkStorageAdapter options none password := by
  refine ⟨?_, ?_, ?_⟩ <;> simp [Account.construct, h]

/-- Witness for C9 at a concrete input: with a recognizer that accepts
exactly the demo mnemonic, constructing an Account from that mnemonic and
a keystore options object stores the mnemonic in the wallet, clears the
username, and builds the adapter from an undefined username. -/
theorem account_construct_mnemonic_witness :
    (Account.construct (fun s => s == "abandon ability able")
        (some "abandon ability able") (some "pw")
        (some { store_memory := false, store_in_keystore := true,
                keystore_url := some "https://ks.example/", discover := none })).wallet_mnemonic
      = some "abandon ability able" ∧
    (Account.construct (fun s => s == "abandon ability able")
        (some "abandon ability able") (some "pw")
        (some { store_memory := false, store_in_keystore := true,
                keystore_url := some "https://ks.example/", discover := none })).username
      = none ∧
    (Account.construct (fun s => s == "abandon ability able")
        (some "abandon ability able") (some "pw")
        (some { store_memory := false, store_in_keystore := true,
                keystore_url := some "https://ks.example/", discover := none })).adapter
      = mkStorageAdapter
          (some { store_memory := false, store_in_keystore := true,
                  keystore_url := some "https://ks.example/", discover := none })
          none (some "pw") :=
  account_construct_mnemonic (fun s => s == "abandon ability able")
    "abandon ability able" (some "pw")
    (some { store_memory := false, store_in_keystore := true,
            keystore_url := some "https://ks.example/", discover := none })
    (by decide)

/-- C10 fails on the code: constructing an Account with
store_in_keystore, username "alice", password "hunter2" and keystore_url
"https://example.com/" yields a KeystoreStorageAdapter whose username is
the URL, whose password is "alice", and whose base URL is "hunter2" — not
an adapter with username "alice", password "hunter2" and base URL
"https://example.com/" as the adapter's own constructor documentation
intends.  The call at line 188 passes (keystore_url, username, password)
to the (username, password, keystore_url) constructor. -/
theorem account_keystore_misordered_arguments :
    (Account.construct (fun _ => false) (some "alice") (some "hunter2")
        (some { store_memory := false, store_in_keystore := true,
                keystore_url := some "https://example.com/", discover := none })).adapter
      = .keystore { username := some "https://example.com/",
                    password := some "alice", url := "hunter2" } ∧
    ({ username := some "https://example.com/", password := some "alice",
       url := "hunter2" } : KeystoreStorageAdapter)
      ≠ { username := some "alice", password := some "hunter2",
          url := "https://example.com/" } := by
  exact ⟨rfl, by decide⟩

end OIPAccount
